import Mathlib

/-!
Verification of the swarmkit certificate-authority core against its
specification. The repository ships the test suite of the `ca` package
(src/ca/config_test.go) and the node-list CLI command
(src/cmd/swarmctl/node/list.go); the `ca` package implementation itself is
not part of the source tree, so its operations are modelled from the
specification, as the doc comments below record. Byte strings (tokens,
certificates, keys, identifiers) are modelled as `List Char`; time is
modelled in whole seconds as `Int`.
-/

namespace SwarmCA

/-- Decidable equality on `Except`, used to evaluate outcomes of the
modelled operations on concrete inputs. -/
instance {ε α : Type} [DecidableEq ε] [DecidableEq α] : DecidableEq (Except ε α)
  | .error x, .error y =>
      if h : x = y then isTrue (by rw [h])
      else isFalse (fun hc => h (Except.error.inj hc))
  | .error _, .ok _ => isFalse (fun hc => Except.noConfusion hc)
  | .ok _, .error _ => isFalse (fun hc => Except.noConfusion hc)
  | .ok x, .ok y =>
      if h : x = y then isTrue (by rw [h])
      else isFalse (fun hc => h (Except.ok.inj hc))

/-- Reason carried by a certificate-validity failure. -/
inductive CertInvalidReason where
  | notYetValid
  | expired
  | chainUntrusted
deriving DecidableEq

/-- Error taxonomy of the `ca` core, from the specification section 7. -/
inductive CAError where
  | invalidJoinToken
  | fingerprintMismatch
  | certificateInvalid (reason : CertInvalidReason)
  | invalidKEK
  | invalidKeyFormat
  | identityNotFound (nodeID : List Char)
deriving DecidableEq

/-- Role of a node, a small closed set. -/
inductive NodeRole where
  | worker
  | manager
deriving DecidableEq

/-- Splits a byte string on a separator character, mirroring the Go
standard-library split used on join tokens: the result always has one more
field than there are separators, and empty fields are kept. -/
def splitFields (sep : Char) : List Char → List (List Char)
  | [] => [[]]
  | c :: cs =>
      match splitFields sep cs with
      | [] => if c = sep then [[], []] else [[c]]
      | f :: fs => if c = sep then [] :: f :: fs else (c :: f) :: fs

/-- Fixed leading field of a well-formed join token. -/
def tokenHeader : List Char := ['S', 'W', 'M', 'T', 'K', 'N']

/-- Version marker field of a well-formed join token. -/
def tokenVersion : List Char := ['1']

/-- Length of the encoded root-certificate fingerprint field inside a
well-formed join token. -/
def fingerprintLength : Nat := 50

/-- Modelled from the spec: `parseToken` (secure bootstrap, section 4.4)
validates the field count, the version marker and the fingerprint length of
a join token and fails with `invalidJoinToken` otherwise; an empty token is
a valid no-verification-requested input, not an error. On success it
returns the fingerprint the token carries, or `none` for the empty token. -/
def parseToken (token : List Char) : Except CAError (Option (List Char)) :=
  if token = [] then .ok none
  else
    match splitFields '-' token with
    | [hdr, ver, fp, _secret] =>
        if hdr = tokenHeader ∧ ver = tokenVersion ∧ fp.length = fingerprintLength
        then .ok (some fp)
        else .error .invalidJoinToken
    | _ => .error .invalidJoinToken

/-- A root authority handle: the root certificate material, the trusted
pool used to verify peers, and the optional signing key (absent on
verification-only authorities). -/
structure RootCA where
  cert : List Char
  pool : List (List Char)
  signer : Option (List Char)
deriving DecidableEq

/-- A root authority can sign exactly when a signing key is present. -/
def RootCA.canSign (r : RootCA) : Bool := r.signer.isSome

/-- Environment of a bootstrap download: the fingerprint digest function
and the root certificate the cluster bootstrap service serves. -/
structure BootstrapEnv where
  digest : List Char → List Char
  servedCert : List Char

/-- The on-disk root certificate store of a node: the root certificate
file, when present. -/
structure CAStore where
  rootCert : Option (List Char)
deriving DecidableEq

/-- Modelled from the spec: `downloadRootCA` (section 4.4). When local
trusted root material already exists it is returned unchanged with no
network call. Otherwise the token is parsed before any network access;
a malformed token fails with `invalidJoinToken` and zero network calls.
Then the candidate root certificate is fetched (one network call) and its
digest compared byte for byte with the fingerprint the token carried;
a mismatch fails with `fingerprintMismatch` and the candidate is never
persisted. On match, or when no fingerprint was supplied, the certificate
is persisted and a verification-only root authority is returned. The
result is the outcome, the resulting store, and the number of network
calls made. -/
def downloadRootCA (env : BootstrapEnv) (store : CAStore) (token : List Char) :
    Except CAError RootCA × CAStore × Nat :=
  match store.rootCert with
  | some c => (.ok { cert := c, pool := [c], signer := none }, store, 0)
  | none =>
      match parseToken token with
      | .error e => (.error e, store, 0)
      | .ok want =>
          let served := env.servedCert
          let fp := env.digest served
          match want with
          | some w =>
              if w = fp then
                (.ok { cert := served, pool := [served], signer := none },
                 { rootCert := some served }, 1)
              else
                (.error .fingerprintMismatch, store, 1)
          | none =>
              (.ok { cert := served, pool := [served], signer := none },
               { rootCert := some served }, 1)

/-- An X.509-style certificate as far as the core inspects it: validity
window (whole seconds), issuing root, and the embedded role. -/
structure XCert where
  notBefore : Int
  notAfter : Int
  issuer : List Char
deriving DecidableEq

/-- Modelled from the spec: `loadSecurityConfig` (section 4.5) validates
that the stored certificate chains to the trust pool and that it is
temporally valid; when `allowExpired` is set only not-yet-valid remains
fatal. Failures carry a `certificateInvalid` error with the underlying
reason. -/
def loadSecurityConfig (pool : List (List Char)) (now : Int) (allowExpired : Bool)
    (c : XCert) : Except CAError XCert :=
  if c.issuer ∉ pool then .error (.certificateInvalid .chainUntrusted)
  else if now < c.notBefore then .error (.certificateInvalid .notYetValid)
  else if c.notAfter < now ∧ allowExpired = false then .error (.certificateInvalid .expired)
  else .ok c

/-- The persisted form of a node key, abstractly: a plaintext record, an
encrypted record remembering the key-encryption key it was sealed under,
or structurally invalid bytes. -/
inductive KeyRecord where
  | plaintext (key : List Char)
  | encrypted (sealedUnder : List Char) (key : List Char)
  | garbage (raw : List Char)
deriving DecidableEq

/-- Modelled from the spec: `write` of the encrypted key store
(section 4.3) encrypts and tags the payload with the active KEK when one
is configured, and stores plaintext otherwise. -/
def writeKey (kek : Option (List Char)) (key : List Char) : KeyRecord :=
  match kek with
  | none => .plaintext key
  | some k => .encrypted k key

/-- Modelled from the spec: `read` of the encrypted key store
(section 4.3) detects whether the stored record is encrypted; if encrypted
and no KEK, or the wrong KEK, is configured it fails with `invalidKEK`,
while structurally invalid input fails with `invalidKeyFormat`. -/
def readKey (kek : Option (List Char)) (rec : KeyRecord) : Except CAError (List Char) :=
  match rec with
  | .plaintext key => .ok key
  | .encrypted sealedUnder key =>
      match kek with
      | none => .error .invalidKEK
      | some k => if k = sealedUnder then .ok key else .error .invalidKEK
  | .garbage _ => .error .invalidKeyFormat

/-- A certificate-issuance policy: requested validity duration and the
fixed backdate offset, both in whole seconds. -/
structure SigningPolicy where
  validity : Int
  backdate : Int
deriving DecidableEq

/-- Modelled from the spec: certificates are issued with `NotBefore`
backdated by the policy backdate to tolerate clock skew, so the effective
remaining validity at issue time is the requested duration minus the
backdate. -/
def issueCert (now : Int) (pol : SigningPolicy) (issuer : List Char) : XCert :=
  { notBefore := now - pol.backdate
    notAfter := now - pol.backdate + pol.validity
    issuer := issuer }

/-- Default issuance policy of the cluster root: ninety-day certificates
with a five-minute backdate, in seconds. -/
def defaultNodePolicy : SigningPolicy := { validity := 7776000, backdate := 300 }

/-- Short-lived issuance policy used by the renewal scenario: six-minute
certificates with the default five-minute backdate, in seconds. -/
def shortLivedPolicy : SigningPolicy := { validity := 360, backdate := 300 }

/-- Modelled from the spec: the wake point of the renewal loop is a
randomized fraction of the certificate validity period, roughly half and
jittered upward to avoid thundering-herd renewal, measured from the
certificate issue time and clamped below at zero; the spec records that
the exact jitter bounds are policy choices inferred from test timings,
where certificates with under a minute of remaining validity renew within
about ten seconds. The jitter argument `j` is the drawn percentage of the
validity period, between `jitterLowPct` and `jitterHighPct`. The result is
the delay, in seconds, before the loop wakes. -/
def computeWakeDelay (now : Int) (c : XCert) (j : Nat) : Int :=
  max 0 (c.notBefore + (c.notAfter - c.notBefore) * (j : Int) / 100 - now)

/-- Lower jitter percentage bound of the renewal wake point. -/
def jitterLowPct : Nat := 50

/-- Upper jitter percentage bound of the renewal wake point. -/
def jitterHighPct : Nat := 80

/-- An event on the renewal update stream: either a successful refresh or
an error, tagged with the role it applies to. -/
structure CertificateUpdate where
  err : Option CAError
  role : NodeRole
deriving DecidableEq

/-- Modelled from the spec: one renewal cycle re-issues a certificate for
the same identity; if the node identity is no longer recognized by the
cluster membership the cycle produces an `identityNotFound` error naming
the missing identity, surfaced as a normal update rather than a crash. -/
def renewCycle (cluster : List (List Char)) (nodeID : List Char) (role : NodeRole) :
    CertificateUpdate :=
  if nodeID ∈ cluster then { err := none, role := role }
  else { err := some (.identityNotFound nodeID), role := role }

/-- Modelled from the spec: the renewal loop, unfolded for a bounded
number of cycles. Each cycle waits for the computed wake delay, runs one
renewal and emits exactly one update, stamped here with the absolute time
of its emission. On success the refreshed certificate is issued under the
renewal policy and the loop continues; the identity-not-found failure is
terminal for the process, so the trace ends after its update. -/
def renewTrace (cluster : List (List Char)) (nodeID : List Char) (role : NodeRole)
    (renewPol : SigningPolicy) (issuer : List Char) (j : Nat) :
    Nat → Int → XCert → List (Int × CertificateUpdate)
  | 0, _, _ => []
  | Nat.succ k, time, cert =>
      let t := time + computeWakeDelay time cert j
      if nodeID ∈ cluster then
        (t, renewCycle cluster nodeID role) ::
          renewTrace cluster nodeID role renewPol issuer j k t (issueCert t renewPol issuer)
      else
        [(t, renewCycle cluster nodeID role)]

/-- Capacity of the force-renew signal channel. -/
def channelCapacity : Nat := 1

/-- Modelled from the spec: a non-blocking send on the capacity-one
force-renew channel; when a signal is already pending the new one is
coalesced (dropped), not queued twice, and the send is never an error.
The result is the new number of queued signals paired with whether the
send failed. -/
def sendForceRenew (queued : Nat) : Nat × Bool :=
  if queued < channelCapacity then (queued + 1, false) else (queued, false)

/-- Number of signals queued after `n` force-renew sends in quick
succession starting from an empty channel, before the loop wakes. -/
def sendMany : Nat → Nat
  | 0 => 0
  | n + 1 => (sendForceRenew (sendMany n)).1

/-- Modelled from the spec: when the renewal loop wakes on the force-renew
signal it drains the channel and runs one early renewal cycle per drained
signal, emitting one update per cycle. -/
def wakeAndDrain (cluster : List (List Char)) (nodeID : List Char) (role : NodeRole)
    (queued : Nat) : List CertificateUpdate :=
  List.replicate queued (renewCycle cluster nodeID role)

/-- Modelled from the spec: `rotate` atomically replaces the trusted pool
and the signing capability of a root authority; the stored certificate
material becomes the bundle of the new pool. -/
def RootCA.rotate (_r : RootCA) (newPool : List (List Char))
    (newKey : Option (List Char)) : RootCA :=
  { cert := newPool.foldr (fun a b => a ++ b) []
    pool := newPool
    signer := newKey }

/-- Modelled from the spec: a peer certificate verifies against a root
authority exactly when it chains to some root currently in the trusted
pool. -/
def RootCA.verifyPeer (r : RootCA) (c : XCert) : Bool :=
  decide (c.issuer ∈ r.pool)

end SwarmCA

namespace SwarmCtl

/-- Availability field of a node spec; the zero value is the unknown
availability, which is what an empty spec carries. -/
inductive Availability where
  | unknown
  | active
  | pause
  | drain
deriving DecidableEq

/-- Display form of an availability value, mirroring its String method. -/
def Availability.display : Availability → List Char
  | .unknown => ['U', 'N', 'K', 'N', 'O', 'W', 'N']
  | .active => ['A', 'C', 'T', 'I', 'V', 'E']
  | .pause => ['P', 'A', 'U', 'S', 'E']
  | .drain => ['D', 'R', 'A', 'I', 'N']

/-- Name annotations of a node spec. -/
structure SpecAnnotations where
  name : List Char
deriving DecidableEq

/-- A node spec as the list command reads it: the name annotations and the
availability. -/
structure NodeSpec where
  annotations : SpecAnnotations
  availability : Availability
deriving DecidableEq

/-- The empty node spec the list command substitutes for a nil spec. -/
def emptyNodeSpec : NodeSpec :=
  { annotations := { name := [] }, availability := .unknown }

/-- Node description as the list command reads it: the reported hostname. -/
structure NodeDescription where
  hostname : List Char
deriving DecidableEq

/-- Node status as the list command reads it: the display form of the
state, whose String method is a trusted library call. -/
structure NodeStatus where
  state : List Char
deriving DecidableEq

/-- A node as the list command reads it; the spec pointer may be nil. -/
structure Node where
  id : List Char
  spec : Option NodeSpec
  description : NodeDescription
  status : NodeStatus
deriving DecidableEq

/-- The name column of the table output: the spec name annotation, falling
back to the reported hostname when the annotation is empty. Embeds the
name computation of the output closure in src/cmd/swarmctl/node/list.go. -/
def displayName (n : Node) : List Char :=
  let spec := n.spec.getD emptyNodeSpec
  if spec.annotations.name = [] then n.description.hostname
  else spec.annotations.name

/-- One table row of the non-quiet output, embedding the Fprintf line of
the output closure in src/cmd/swarmctl/node/list.go: the nil spec is
replaced by the empty spec, the name column falls back to the hostname,
and the columns are joined with tabs. -/
def renderRow (n : Node) : List Char :=
  let spec := n.spec.getD emptyNodeSpec
  n.id ++ ['\t'] ++ displayName n ++ ['\t'] ++ n.status.state ++ ['\t'] ++
    spec.availability.display

/-- The lines printed by the node-list command for the listed nodes,
embedding the output selection and the loop of listCmd in
src/cmd/swarmctl/node/list.go: in quiet mode each node prints exactly its
id; otherwise each node prints its table row. -/
def listCmdOutput (quiet : Bool) (nodes : List Node) : List (List Char) :=
  let output : Node → List Char :=
    if quiet then fun n => n.id else renderRow
  nodes.map output

end SwarmCtl

namespace SwarmCA

/-- A theorem exercising `parseToken` on a well-formed token, kept as a
sanity check of the token model: fifty fingerprint characters parse. -/
theorem parseToken_wellFormed_sanity :
    parseToken (tokenHeader ++ ['-'] ++ tokenVersion ++ ['-'] ++
      List.replicate 50 'a' ++ ['-'] ++ ['s']) =
      .ok (some (List.replicate 50 'a')) := by
  decide

/-- C1: for every join token whose fingerprint field does not match the
fingerprint of the root certificate actually served by the cluster,
`downloadRootCA` (run without pre-existing local root material, the
situation in which a download happens at all) fails with a
fingerprint-mismatch error and the root certificate store is exactly as it
was before the call: the candidate certificate is never persisted. -/
theorem downloadRootCA_fingerprintMismatch (env : BootstrapEnv) (store : CAStore)
    (token want : List Char)
    (hstore : store.rootCert = none)
    (hparse : parseToken token = .ok (some want))
    (hne : want ≠ env.digest env.servedCert) :
    downloadRootCA env store token = (.error .fingerprintMismatch, store, 1) := by
  simp [downloadRootCA, hstore, hparse, hne]

/-- Witness for C1 at a concrete token carrying fifty characters of the
letter a as its fingerprint, against a service whose certificate digest
differs. -/
theorem downloadRootCA_fingerprintMismatch_witness :
    downloadRootCA { digest := fun c => 'x' :: c, servedCert := ['c'] }
        { rootCert := none }
        (tokenHeader ++ ['-'] ++ tokenVersion ++ ['-'] ++
          List.replicate 50 'a' ++ ['-'] ++ ['s']) =
      (.error .fingerprintMismatch, { rootCert := none }, 1) :=
  downloadRootCA_fingerprintMismatch _ _ _ (List.replicate 50 'a') rfl
    (by decide) (by decide)

/-- C2: for every malformed join token (wrong field count, wrong version
marker, or wrong fingerprint length), `parseToken` fails with an
invalid-join-token error and `downloadRootCA` fails the same way with
zero network calls made. -/
theorem downloadRootCA_invalidJoinToken (env : BootstrapEnv) (store : CAStore)
    (token : List Char)
    (hstore : store.rootCert = none)
    (hne : token ≠ [])
    (hbad : ∀ hdr ver fp s, splitFields '-' token = [hdr, ver, fp, s] →
        ¬(hdr = tokenHeader ∧ ver = tokenVersion ∧ fp.length = fingerprintLength)) :
    parseToken token = .error .invalidJoinToken ∧
      downloadRootCA env store token = (.error .invalidJoinToken, store, 0) := by
  have hp : parseToken token = .error .invalidJoinToken := by
    unfold parseToken
    rw [if_neg hne]
    split
    · rename_i hdr ver fp s hsp
      exact if_neg (hbad hdr ver fp s hsp)
    · rfl
  exact ⟨hp, by simp [downloadRootCA, hstore, hp]⟩

/-- Witness for C2 at the completely malformed token SWM, which splits
into a single field instead of four. -/
theorem downloadRootCA_invalidJoinToken_witness :
    parseToken ['S', 'W', 'M'] = .error .invalidJoinToken ∧
      downloadRootCA { digest := fun c => c, servedCert := ['c'] } { rootCert := none }
        ['S', 'W', 'M'] = (.error .invalidJoinToken, { rootCert := none }, 0) :=
  downloadRootCA_invalidJoinToken _ _ _ rfl (by decide)
    (by intro hdr ver fp s h; simp [splitFields] at h)

/-- C3: whenever `downloadRootCA` succeeds on the download path, with a
well-formed token whose fingerprint matches the served root certificate or
with an empty token (which disables fingerprint verification and is not an
error), it returns a verification-only root authority: its certificate
equals the served cluster root certificate, it has no signer, and canSign
is false; the served certificate is persisted. -/
theorem downloadRootCA_success (env : BootstrapEnv) (store : CAStore) (token : List Char)
    (hstore : store.rootCert = none)
    (hok : token = [] ∨ parseToken token = .ok (some (env.digest env.servedCert))) :
    downloadRootCA env store token =
      (.ok { cert := env.servedCert, pool := [env.servedCert], signer := none },
       { rootCert := some env.servedCert }, 1) ∧
    RootCA.canSign { cert := env.servedCert, pool := [env.servedCert], signer := none }
      = false := by
  refine ⟨?_, rfl⟩
  rcases hok with h | h
  · subst h
    simp [downloadRootCA, hstore, parseToken]
  · simp [downloadRootCA, hstore, h]

/-- Witness for C3 at the empty token. -/
theorem downloadRootCA_success_witness :
    downloadRootCA { digest := fun c => c, servedCert := ['c'] } { rootCert := none } [] =
      (.ok { cert := ['c'], pool := [['c']], signer := none },
       { rootCert := some ['c'] }, 1) ∧
    RootCA.canSign { cert := ['c'], pool := [['c']], signer := none } = false :=
  downloadRootCA_success _ _ _ rfl (Or.inl rfl)

/-- C4: `loadSecurityConfig` rejects, with a certificate-invalid error,
every certificate whose NotBefore lies in the future, for both values of
the allowExpired flag; a certificate whose NotAfter lies in the past (and
which chains to the pool and is past its NotBefore) is rejected when
allowExpired is false and accepted when allowExpired is true. -/
theorem loadSecurityConfig_temporal (pool : List (List Char)) (now : Int) (c : XCert) :
    (∀ allowExpired : Bool, now < c.notBefore →
        ∃ r, loadSecurityConfig pool now allowExpired c =
          .error (.certificateInvalid r)) ∧
    (c.issuer ∈ pool → c.notBefore ≤ now → c.notAfter < now →
        loadSecurityConfig pool now false c = .error (.certificateInvalid .expired) ∧
        loadSecurityConfig pool now true c = .ok c) := by
  constructor
  · intro ae hlt
    by_cases hch : c.issuer ∈ pool
    · exact ⟨.notYetValid, by simp [loadSecurityConfig, hch, hlt]⟩
    · exact ⟨.chainUntrusted, by simp [loadSecurityConfig, hch]⟩
  · intro hch hnb hna
    constructor
    · simp [loadSecurityConfig, hch, not_lt.mpr hnb, hna]
    · simp [loadSecurityConfig, hch, not_lt.mpr hnb, hna]

/-- Witness for C4: a not-yet-valid certificate is rejected under the
allow-expired flag, and an expired one is rejected without the flag but
accepted with it. -/
theorem loadSecurityConfig_temporal_witness :
    (∃ r, loadSecurityConfig [['r']] 3 true
        { notBefore := 5, notAfter := 10, issuer := ['r'] } =
        .error (.certificateInvalid r)) ∧
    loadSecurityConfig [['r']] 20 false
        { notBefore := 5, notAfter := 10, issuer := ['r'] } =
      .error (.certificateInvalid .expired) ∧
    loadSecurityConfig [['r']] 20 true
        { notBefore := 5, notAfter := 10, issuer := ['r'] } =
      .ok { notBefore := 5, notAfter := 10, issuer := ['r'] } := by
  refine ⟨(loadSecurityConfig_temporal [['r']] 3
      { notBefore := 5, notAfter := 10, issuer := ['r'] }).1 true (by decide), ?_, ?_⟩
  · exact ((loadSecurityConfig_temporal [['r']] 20
      { notBefore := 5, notAfter := 10, issuer := ['r'] }).2
      (by decide) (by decide) (by decide)).1
  · exact ((loadSecurityConfig_temporal [['r']] 20
      { notBefore := 5, notAfter := 10, issuer := ['r'] }).2
      (by decide) (by decide) (by decide)).2

/-- C5: reading a key record that was written KEK-encrypted, using a key
store configured with no KEK or the wrong KEK, fails with an invalid-KEK
error, and that error is distinguishable from the invalid-key-format error
produced by structurally invalid input, so callers can tell
wrong-passphrase apart from corrupt data. -/
theorem readKey_invalidKEK (key kek0 raw : List Char) (kek : Option (List Char))
    (h : kek ≠ some kek0) :
    readKey kek (writeKey (some kek0) key) = .error .invalidKEK ∧
    readKey kek (.garbage raw) = .error .invalidKeyFormat ∧
    CAError.invalidKEK ≠ CAError.invalidKeyFormat := by
  refine ⟨?_, rfl, by decide⟩
  cases kek with
  | none => rfl
  | some k =>
      have hk : k ≠ kek0 := fun he => h (by rw [he])
      simp [readKey, writeKey, hk]

/-- Witness for C5: a key sealed under the passphrase kek read with no
KEK configured fails with the invalid-KEK error. -/
theorem readKey_invalidKEK_witness :
    readKey none (writeKey (some ['k']) ['p']) = .error .invalidKEK ∧
    readKey none (.garbage ['g']) = .error .invalidKeyFormat ∧
    CAError.invalidKEK ≠ CAError.invalidKeyFormat :=
  readKey_invalidKEK ['p'] ['k'] ['g'] none (by decide)

/-- Every update in a renewal trace is emitted no earlier than the start
time of the trace: wake delays are clamped below at zero. -/
theorem renewTrace_time_lower (cluster : List (List Char)) (nodeID : List Char)
    (role : NodeRole) (renewPol : SigningPolicy) (issuer : List Char) (j : Nat) :
    ∀ (k : Nat) (time : Int) (cert : XCert) (p : Int × CertificateUpdate),
      p ∈ renewTrace cluster nodeID role renewPol issuer j k time cert → time ≤ p.1 := by
  intro k
  induction k with
  | zero =>
      intro time cert p hp
      simp [renewTrace] at hp
  | succ k ih =>
      intro time cert p hp
      have hdelay : (0 : Int) ≤ computeWakeDelay time cert j := le_max_left 0 _
      by_cases hmem : nodeID ∈ cluster
      · simp only [renewTrace, if_pos hmem, List.mem_cons] at hp
        rcases hp with h | h
        · rw [h]; omega
        · have := ih _ _ p h
          omega
      · simp only [renewTrace, if_neg hmem, List.mem_singleton] at hp
        rw [hp]; omega

/-- Every update in a renewal trace is emitted no earlier than the first
computed wake time. -/
theorem renewTrace_wake_lower (cluster : List (List Char)) (nodeID : List Char)
    (role : NodeRole) (renewPol : SigningPolicy) (issuer : List Char) (j : Nat)
    (k : Nat) (time : Int) (cert : XCert) (p : Int × CertificateUpdate)
    (hp : p ∈ renewTrace cluster nodeID role renewPol issuer j k time cert) :
    time + computeWakeDelay time cert j ≤ p.1 := by
  cases k with
  | zero => simp [renewTrace] at hp
  | succ k =>
      by_cases hmem : nodeID ∈ cluster
      · simp only [renewTrace, if_pos hmem, List.mem_cons] at hp
        rcases hp with h | h
        · rw [h]
        · exact renewTrace_time_lower cluster nodeID role renewPol issuer j k _ _ p h
      · simp only [renewTrace, if_neg hmem, List.mem_singleton] at hp
        rw [hp]

/-- C6: for a renewal process started on a certificate with about one
minute of remaining validity (issued under the six-minute validity,
five-minute backdate policy), whatever jitter percentage the loop draws
within its bounds, the process emits exactly one successful update within
ten seconds, and the update carries the same role as the input
configuration. -/
theorem renewTrace_shortLived_oneUpdate (cluster : List (List Char))
    (nodeID issuer : List Char) (role : NodeRole) (j k : Nat)
    (hmem : nodeID ∈ cluster) (hj1 : jitterLowPct ≤ j) (hj2 : j ≤ jitterHighPct)
    (hk : 1 ≤ k) :
    (renewTrace cluster nodeID role defaultNodePolicy issuer j k 0
        (issueCert 0 shortLivedPolicy issuer)).filter (fun p => decide (p.1 ≤ 10)) =
      [(0, { err := none, role := role })] := by
  have hjc1 : (50 : Int) ≤ (j : Int) := by exact_mod_cast hj1
  have hjc2 : ((j : Int)) ≤ 80 := by exact_mod_cast hj2
  have hdelay0 : computeWakeDelay 0 (issueCert 0 shortLivedPolicy issuer) j = 0 := by
    simp [computeWakeDelay, issueCert, shortLivedPolicy]
    omega
  have hbig : (10 : Int) < 0 + computeWakeDelay 0 (issueCert 0 defaultNodePolicy issuer) j := by
    simp [computeWakeDelay, issueCert, defaultNodePolicy]
    omega
  obtain ⟨m, rfl⟩ : ∃ m, k = m + 1 := ⟨k - 1, by omega⟩
  simp only [renewTrace, if_pos hmem, hdelay0, add_zero, renewCycle]
  rw [List.filter_cons_of_pos rfl]
  rw [List.filter_eq_nil_iff.mpr]
  intro p hp
  have := renewTrace_wake_lower cluster nodeID role defaultNodePolicy issuer j m 0
    (issueCert 0 defaultNodePolicy issuer) p hp
  simp only [decide_eq_true_eq]
  omega

/-- Witness for C6 at a concrete two-cycle trace with jitter percentage
sixty-four. -/
theorem renewTrace_shortLived_oneUpdate_witness :
    (renewTrace [['n']] ['n'] NodeRole.worker defaultNodePolicy ['r'] 64 2 0
        (issueCert 0 shortLivedPolicy ['r'])).filter (fun p => decide (p.1 ≤ 10)) =
      [(0, { err := none, role := NodeRole.worker })] :=
  renewTrace_shortLived_oneUpdate [['n']] ['n'] ['r'] NodeRole.worker 64 2
    (by decide) (by decide) (by decide) (by decide)

/-- C7: if the node identity has been deleted from the cluster membership
when a renewal cycle runs, the renewal process emits exactly one update
carrying an identity-not-found error that references the missing identity,
and that failure is terminal for the renewal process: however much fuel
the loop has left, the trace is that single error update. -/
theorem renewTrace_identityNotFound (cluster : List (List Char))
    (nodeID issuer : List Char) (role : NodeRole) (renewPol : SigningPolicy)
    (j k : Nat) (time : Int) (cert : XCert)
    (h : nodeID ∉ cluster) :
    renewTrace cluster nodeID role renewPol issuer j (k + 1) time cert =
      [(time + computeWakeDelay time cert j,
        { err := some (.identityNotFound nodeID), role := role })] := by
  simp [renewTrace, h, renewCycle]

/-- Witness for C7 at a concrete empty membership store. -/
theorem renewTrace_identityNotFound_witness :
    renewTrace [] ['n'] NodeRole.manager defaultNodePolicy ['r'] 64 4 0
        (issueCert 0 shortLivedPolicy ['r']) =
      [(0 + computeWakeDelay 0 (issueCert 0 shortLivedPolicy ['r']) 64,
        { err := some (.identityNotFound ['n']), role := NodeRole.manager })] :=
  renewTrace_identityNotFound [] ['n'] ['r'] NodeRole.manager defaultNodePolicy
    64 3 0 (issueCert 0 shortLivedPolicy ['r']) (by decide)

/-- The number of signals queued after any burst of force-renew sends
never exceeds the channel capacity of one. -/
theorem sendMany_min (n : Nat) : sendMany n = min n 1 := by
  induction n with
  | zero => rfl
  | succ n ih =>
      simp only [sendMany, ih, sendForceRenew, channelCapacity]
      split <;> simp <;> omega

/-- C8: the force-renew signal has capacity one: any burst of at least one
send before the renewal process wakes leaves exactly one queued signal, no
send is an error, and draining on wake triggers exactly one early renewal
cycle with exactly one update. -/
theorem forceRenew_coalesced (cluster : List (List Char)) (nodeID : List Char)
    (role : NodeRole) (n : Nat) (hn : 1 ≤ n) (hmem : nodeID ∈ cluster) :
    sendMany n = 1 ∧
    (sendForceRenew (sendMany n)).2 = false ∧
    wakeAndDrain cluster nodeID role (sendMany n) = [{ err := none, role := role }] := by
  have h1 : sendMany n = 1 := by rw [sendMany_min]; omega
  refine ⟨h1, ?_, ?_⟩
  · rw [h1]; rfl
  · rw [h1]
    simp [wakeAndDrain, renewCycle, hmem]

/-- Witness for C8 at two force-renew sends in quick succession. -/
theorem forceRenew_coalesced_witness :
    sendMany 2 = 1 ∧
    (sendForceRenew (sendMany 2)).2 = false ∧
    wakeAndDrain [['n']] ['n'] NodeRole.manager (sendMany 2) =
      [{ err := none, role := NodeRole.manager }] :=
  forceRenew_coalesced [['n']] ['n'] NodeRole.manager 2 (by decide) (by decide)

/-- C9: after rotate installs a pool holding the new root alongside the
old one, peer certificates issued under either root verify against the
pool; after a further rotate that removes the old root, only certificates
chaining to the remaining root verify. -/
theorem rotate_trustPool (r : RootCA) (key key2 : Option (List Char))
    (oldRoot newRoot : List Char) (cOld cNew : XCert)
    (hO : cOld.issuer = oldRoot) (hN : cNew.issuer = newRoot)
    (hne : oldRoot ≠ newRoot) :
    (r.rotate [oldRoot, newRoot] key).verifyPeer cOld = true ∧
    (r.rotate [oldRoot, newRoot] key).verifyPeer cNew = true ∧
    ((r.rotate [oldRoot, newRoot] key).rotate [newRoot] key2).verifyPeer cNew = true ∧
    ((r.rotate [oldRoot, newRoot] key).rotate [newRoot] key2).verifyPeer cOld = false := by
  simp [RootCA.rotate, RootCA.verifyPeer, hO, hN, hne]

/-- Witness for C9 at two concrete distinct roots. -/
theorem rotate_trustPool_witness :
    (RootCA.rotate { cert := [], pool := [], signer := none } [['a'], ['b']]
        none).verifyPeer { notBefore := 0, notAfter := 9, issuer := ['a'] } = true ∧
    (RootCA.rotate { cert := [], pool := [], signer := none } [['a'], ['b']]
        none).verifyPeer { notBefore := 0, notAfter := 9, issuer := ['b'] } = true ∧
    ((RootCA.rotate { cert := [], pool := [], signer := none } [['a'], ['b']]
        none).rotate [['b']] none).verifyPeer
      { notBefore := 0, notAfter := 9, issuer := ['b'] } = true ∧
    ((RootCA.rotate { cert := [], pool := [], signer := none } [['a'], ['b']]
        none).rotate [['b']] none).verifyPeer
      { notBefore := 0, notAfter := 9, issuer := ['a'] } = false :=
  rotate_trustPool { cert := [], pool := [], signer := none } none none
    ['a'] ['b'] { notBefore := 0, notAfter := 9, issuer := ['a'] }
    { notBefore := 0, notAfter := 9, issuer := ['b'] } rfl rfl (by decide)

end SwarmCA

namespace SwarmCtl

/-- C10: in the node-list command, in quiet mode the printed lines are
exactly the node ids, one per listed node; when a node spec is nil the row
is rendered as if the spec were the empty spec (no crash); and when the
name annotation is empty the name column falls back to the reported
hostname. -/
theorem listCmd_output (nodes : List Node) (n : Node) (s : NodeSpec) :
    listCmdOutput true nodes = nodes.map (fun m => m.id) ∧
    (n.spec = none →
        renderRow n = renderRow { n with spec := some emptyNodeSpec }) ∧
    (n.spec = some s → s.annotations.name = [] →
        displayName n = n.description.hostname) := by
  refine ⟨rfl, ?_, ?_⟩
  · intro h
    simp [renderRow, displayName, h]
  · intro h1 h2
    simp [displayName, h1, h2]

/-- Witness for C10 at a one-node list with a nil spec and at a node whose
spec carries an empty name annotation. -/
theorem listCmd_output_witness :
    listCmdOutput true
        [{ id := ['i'], spec := none,
           description := { hostname := ['h'] }, status := { state := ['s'] } }] =
      [['i']] ∧
    renderRow
        { id := ['i'], spec := none,
          description := { hostname := ['h'] }, status := { state := ['s'] } } =
      renderRow
        { id := ['i'], spec := some emptyNodeSpec,
          description := { hostname := ['h'] }, status := { state := ['s'] } } ∧
    displayName
        { id := ['i'], spec := some emptyNodeSpec,
          description := { hostname := ['h'] }, status := { state := ['s'] } } =
      ['h'] := by
  refine ⟨?_, ?_, ?_⟩
  · exact (listCmd_output
      [{ id := ['i'], spec := none,
         description := { hostname := ['h'] }, status := { state := ['s'] } }]
      { id := ['i'], spec := none,
        description := { hostname := ['h'] }, status := { state := ['s'] } }
      emptyNodeSpec).1
  · exact (listCmd_output []
      { id := ['i'], spec := none,
        description := { hostname := ['h'] }, status := { state := ['s'] } }
      emptyNodeSpec).2.1 rfl
  · exact (listCmd_output []
      { id := ['i'], spec := some emptyNodeSpec,
        description := { hostname := ['h'] }, status := { state := ['s'] } }
      emptyNodeSpec).2.2 rfl rfl

end SwarmCtl
